import Mathlib

/-!
Verification of the event-to-insight backend (Go) against its specification.

The Go sources are shallowly embedded: Go strings are modelled as `List Char`
(`GoStr`), Go `int` as `Int`, Go slices as `List` (a nil slice and an empty
slice both map to `[]`, except in the JSON codec where the distinction is
observable and is modelled by `Option (List Int)`), fallible operations return
`Except String`, and the SQLite database is modelled as an explicit state
record threaded through the operations.  Storage faults (connection/IO
failures) are modelled by boolean fault flags on the fallible operations.
-/

/-- Go strings, modelled as lists of characters. -/
abbrev GoStr := List Char

/-- Embed a Lean string literal as a `GoStr`. -/
def str (s : String) : GoStr := s.data

/-- Model of Go `strings.ToLower` (character-wise lowercasing). -/
def goToLower (s : GoStr) : GoStr := s.map Char.toLower

/-- Model of Go `strings.Contains s sub`: `sub` occurs as a contiguous
substring of `s`. -/
def goContains (s sub : GoStr) : Bool := s.tails.any (fun t => sub.isPrefixOf t)

/-- Model of Go `strings.TrimSpace`: drop leading and trailing whitespace. -/
def goTrimSpace (s : GoStr) : GoStr :=
  ((s.dropWhile Char.isWhitespace).reverse.dropWhile Char.isWhitespace).reverse

/-- Model of Go `strings.Split s (string sep)` for a one-character separator
(the repository only splits on `"\n"` and `","`). -/
def splitOnChar (sep : Char) : GoStr → List GoStr
  | [] => [[]]
  | c :: rest =>
    let r := splitOnChar sep rest
    if c = sep then [] :: r
    else
      match r with
      | h :: t => (c :: h) :: t
      | [] => [[c]]

/-- The decimal digit character for `n < 10`. -/
def digitChar (n : Nat) : Char := Char.ofNat (48 + n)

/-- Numeric value of a decimal digit character. -/
def digitVal (c : Char) : Nat := c.toNat - 48

/-- Fuel-indexed digit renderer; structural recursion so closed values reduce
definitionally, with the fuel bounding the number of digits. -/
def natToDigitsAux : Nat → Nat → List Char
  | 0, _ => []
  | fuel + 1, n =>
    if n < 10 then [digitChar n]
    else natToDigitsAux fuel (n / 10) ++ [digitChar (n % 10)]

/-- Decimal digit string of a natural number (most significant first). -/
def natToDigits (n : Nat) : List Char := natToDigitsAux (n + 1) n

/-- Decimal rendering of a Go `int`, as produced by `strconv` / `encoding/json`. -/
def intToDigits (i : Int) : List Char :=
  if i < 0 then '-' :: natToDigits (-i).toNat else natToDigits i.toNat

/-- Accumulate a digit string into the natural number it denotes. -/
def foldDigits (ds : List Char) : Nat := ds.foldl (fun acc c => acc * 10 + digitVal c) 0

/-- Model of Go `strconv.Atoi`: an optional sign followed by one or more
digits, with no other characters (integer overflow is not modelled). -/
def goAtoi (s : GoStr) : Option Int :=
  match s with
  | [] => none
  | '+' :: ds => if !ds.isEmpty && ds.all Char.isDigit then some (foldDigits ds : Int) else none
  | '-' :: ds => if !ds.isEmpty && ds.all Char.isDigit then some (-(foldDigits ds : Int)) else none
  | ds => if ds.all Char.isDigit then some (foldDigits ds : Int) else none

/-- models.Article: a knowledge-base article row. -/
structure Article where
  id : Int
  title : GoStr
  content : GoStr
deriving DecidableEq, Repr

/-- ai.AIAnalysisResult: the result of relevance analysis. -/
structure AIAnalysisResult where
  summary : GoStr
  relevantArticles : List Int
deriving DecidableEq, Repr

namespace MockAIService

/-- Canned summary for password queries (mock.go). -/
def passwordSummary : GoStr :=
  str "To reset your password, go to the login page, click \x27Forgot Password\x27, enter your email address, and follow the instructions sent to your email. The reset link expires in 24 hours."

/-- Canned summary for vpn queries (mock.go). -/
def vpnSummary : GoStr :=
  str "To set up VPN connection, download the VPN client from the IT portal, install it with admin credentials, and connect to the \x27Corporate-Main\x27 server using your domain username and password."

/-- Canned summary for email queries (mock.go). -/
def emailSummary : GoStr :=
  str "For email configuration, use IMAP: mail.company.com port 993 SSL and SMTP: mail.company.com port 587 STARTTLS. Ensure your username format is firstname.lastname@company.com."

/-- Canned summary for printer queries (mock.go). -/
def printerSummary : GoStr :=
  str "For printer issues, ensure the printer is connected to the corporate network, install latest drivers, and add printer using IP address 192.168.1.100."

/-- Generic found-relevant-information summary (mock.go). -/
def foundSummary : GoStr :=
  str "I found relevant information in our knowledge base that should help with your query. Please review the articles below for detailed instructions."

/-- Generic no-information / contact-support summary (mock.go). -/
def notFoundSummary : GoStr :=
  str "I couldn\x27t find specific information for your query in our knowledge base. Please contact IT support for further assistance, or try rephrasing your question."

/-- The per-article body of the keyword-matching loop in
`MockAIService.AnalyzeQuery` (mock.go lines 24-44): an eight-way else-if chain
appending the article id on the first keyword that occurs both in the
(lower-cased) query and in the lower-cased title+content. -/
def matchStep (q : GoStr) (acc : List Int) (article : Article) : List Int :=
  let articleText := goToLower (article.title ++ str " " ++ article.content)
  if goContains q (str "password") && goContains articleText (str "password") then acc ++ [article.id]
  else if goContains q (str "vpn") && goContains articleText (str "vpn") then acc ++ [article.id]
  else if goContains q (str "email") && goContains articleText (str "email") then acc ++ [article.id]
  else if goContains q (str "printer") && goContains articleText (str "printer") then acc ++ [article.id]
  else if goContains q (str "software") && goContains articleText (str "software") then acc ++ [article.id]
  else if goContains q (str "backup") && goContains articleText (str "backup") then acc ++ [article.id]
  else if goContains q (str "antivirus") && goContains articleText (str "antivirus") then acc ++ [article.id]
  else if goContains q (str "remote") && goContains articleText (str "remote") then acc ++ [article.id]
  else acc

/-- ai.MockAIService.AnalyzeQuery (mock.go lines 17-65): lower-case the query,
collect relevant article ids by the keyword loop, choose the summary by the
fixed priority chain, and return with a nil error. -/
def AnalyzeQuery (query : GoStr) (articles : List Article) : Except String AIAnalysisResult :=
  let q := goToLower query
  let relevantArticles := articles.foldl (matchStep q) []
  let summary :=
    if goContains q (str "password") then passwordSummary
    else if goContains q (str "vpn") then vpnSummary
    else if goContains q (str "email") then emailSummary
    else if goContains q (str "printer") then printerSummary
    else if relevantArticles.length > 0 then foundSummary
    else notFoundSummary
  .ok ⟨summary, relevantArticles⟩

end MockAIService

namespace HeuristicSpec

/-- The fixed closed keyword list of the heuristic strategy, as the spec
states it. -/
def keywords : List GoStr :=
  [str "password", str "vpn", str "email", str "printer",
   str "software", str "backup", str "antivirus", str "remote"]

/-- Reference definition (from the spec's words): an article matches when some
recognized keyword appears in the lower-cased query and in the article's
lower-cased combined title+content. -/
def articleMatches (query : GoStr) (a : Article) : Bool :=
  keywords.any (fun kw =>
    goContains (goToLower query) kw &&
    goContains (goToLower (a.title ++ str " " ++ a.content)) kw)

/-- Reference definition (from the spec's words): ids of matching articles, in
article-iteration order, each article tested once. -/
def relevantIDs (query : GoStr) (articles : List Article) : List Int :=
  (articles.filter (articleMatches query)).map Article.id

/-- Reference definition (from the spec's words): summary chosen by the fixed
priority password, else vpn, else email, else printer, else a generic
found-relevant-information message if any articles matched, else a generic
no-information/contact-support message. -/
def summary (query : GoStr) (articles : List Article) : GoStr :=
  if goContains (goToLower query) (str "password") then MockAIService.passwordSummary
  else if goContains (goToLower query) (str "vpn") then MockAIService.vpnSummary
  else if goContains (goToLower query) (str "email") then MockAIService.emailSummary
  else if goContains (goToLower query) (str "printer") then MockAIService.printerSummary
  else if relevantIDs query articles ≠ [] then MockAIService.foundSummary
  else MockAIService.notFoundSummary

/-- Reference definition of the whole heuristic strategy, assembled from the
spec's words. -/
def analyze (query : GoStr) (articles : List Article) : AIAnalysisResult :=
  ⟨summary query articles, relevantIDs query articles⟩

end HeuristicSpec

/-- Model of Go `strings.HasPrefix s pre` by direct recursion. -/
def goHasPre : GoStr → GoStr → Bool
  | _, [] => true
  | [], _ :: _ => false
  | c :: s, p :: ps => p == c && goHasPre s ps

namespace GeminiService

/-- Fallback summary substituted when parsing yields no summary (gemini.go). -/
def fallbackSummary : GoStr :=
  str "I found some information that might help you. Please review the relevant articles below, or contact IT support for further assistance."

/-- ai.GeminiService.articleExists: whether an article id occurs in the
supplied article set. -/
def articleExists (id : Int) (articles : List Article) : Bool :=
  articles.any (fun a => a.id == id)

/-- One iteration of the id-token loop in `parseResponse`: trim the token,
parse with `strconv.Atoi`, keep it only when it parses and its article
exists. -/
def tokenStep (articles : List Article) (acc : List Int) (tok : GoStr) : List Int :=
  match goAtoi (goTrimSpace tok) with
  | some id => if articleExists id articles then acc ++ [id] else acc
  | none => acc

/-- The RELEVANT_ARTICLES payload parser of `parseResponse` (gemini.go lines
432-444): unless the payload is `none` or empty, split on commas and collect
the valid ids. -/
def parseArticleIds (articlesStr : GoStr) (articles : List Article) : List Int :=
  if articlesStr ≠ str "none" ∧ articlesStr ≠ [] then
    (splitOnChar ',' articlesStr).foldl (tokenStep articles) []
  else []

/-- One iteration of the line loop in `parseResponse` (gemini.go lines
426-446), acting on the (summary, ids) accumulator. -/
def processLine (articles : List Article) (st : GoStr × List Int) (rawLine : GoStr) :
    GoStr × List Int :=
  let line := goTrimSpace rawLine
  if goHasPre line (str "SUMMARY:") then
    (goTrimSpace (line.drop 8), st.2)
  else if goHasPre line (str "RELEVANT_ARTICLES:") then
    (st.1, st.2 ++ parseArticleIds (goTrimSpace (line.drop 18)) articles)
  else st

/-- The accumulated (summary, ids) state after the line loop of
`parseResponse`. -/
def linesState (response : GoStr) (articles : List Article) : GoStr × List Int :=
  (splitOnChar '\n' response).foldl (processLine articles) ([], [])

/-- ai.GeminiService.parseResponse (gemini.go lines 420-457): run the line
loop, substitute the fallback summary when none was extracted, and return with
a nil error. -/
def parseResponse (response : GoStr) (articles : List Article) :
    Except String AIAnalysisResult :=
  let st := linesState response articles
  .ok ⟨if st.1 = [] then fallbackSummary else st.1, st.2⟩

end GeminiService

/-- Parse a leading run of decimal digits, returning its value and the rest;
fails when the run is empty. -/
def parseDigitsRun (cs : GoStr) : Option (Nat × GoStr) :=
  let ds := cs.takeWhile Char.isDigit
  if ds.isEmpty then none else some (foldDigits ds, cs.dropWhile Char.isDigit)

/-- Parse one (possibly negative) integer token from the front of a character
list, as `encoding/json` scans array elements. -/
def parseIntToken (cs : GoStr) : Option (Int × GoStr) :=
  match cs with
  | '-' :: rest => (parseDigitsRun rest).map (fun p => (-(p.1 : Int), p.2))
  | _ => (parseDigitsRun cs).map (fun p => ((p.1 : Int), p.2))

/-- Comma-joined decimal renderings of the elements of an integer list, as in
the body of a JSON array produced by `encoding/json`. -/
def encElems : List Int → GoStr
  | [] => []
  | [i] => intToDigits i
  | i :: rest => intToDigits i ++ ',' :: encElems rest

/-- Model of Go `json.Marshal` on an `[]int` value: a nil slice renders as
`null`, an empty one as `[]`, otherwise a bracketed comma-separated list. -/
def goMarshalIntSlice : Option (List Int) → GoStr
  | none => str "null"
  | some [] => str "[]"
  | some l => '[' :: encElems l ++ [']']

/-- Fuel-indexed parser for the element list of a JSON integer array (the
fuel bounds the number of elements and is in practice the input length). -/
def decElemsAux : Nat → GoStr → Option (List Int)
  | 0, _ => none
  | fuel + 1, cs =>
    match parseIntToken cs with
    | none => none
    | some (i, rest) =>
      match rest with
      | [']'] => some [i]
      | ',' :: rest2 =>
        match decElemsAux fuel rest2 with
        | some l => some (i :: l)
        | none => none
      | _ => none

/-- Model of Go `json.Unmarshal` into an `[]int` variable, on canonical
integer-array documents: `null` leaves the slice nil, `[]` yields the empty
slice, a bracketed list yields its elements; anything else is a parse
error. -/
def goUnmarshalIntSlice (s : GoStr) : Option (Option (List Int)) :=
  if s = str "null" then some none
  else if s = str "[]" then some (some [])
  else
    match s with
    | '[' :: rest => (decElemsAux rest.length rest).map some
    | _ => none

/-- models.Query: a persisted user query row. -/
structure QueryRec where
  id : Int
  query : GoStr
  createdAt : Nat
deriving DecidableEq, Repr

/-- A raw row of the search_results table (the id list is stored as its JSON
serialization in a TEXT column). -/
structure SearchResultRow where
  id : Int
  queryId : Int
  aiSummaryAnswer : GoStr
  aiRelevantArticlesJson : GoStr
  createdAt : Nat
deriving DecidableEq, Repr

/-- models.SearchResult as surfaced by the storage layer (id list decoded). -/
structure SearchResult where
  id : Int
  queryId : Int
  aiSummaryAnswer : GoStr
  aiRelevantArticles : Option (List Int)
  createdAt : Nat
deriving DecidableEq, Repr

/-- The SQLite database state: rows in insertion order (the scan order SQLite
uses for the repository's unordered SELECTs), AUTOINCREMENT counters, and the
current clock value used for `time.Now()`. -/
structure DBState where
  schemaReady : Bool
  articles : List Article
  queries : List QueryRec
  searchResults : List SearchResultRow
  nextArticleId : Int
  nextQueryId : Int
  nextResultId : Int
  now : Nat
deriving DecidableEq, Repr

/-- Fault-injection flags: whether each storage call of the search pipeline
fails with a connection/IO error. -/
structure Faults where
  createQuery : Bool
  getAllArticles : Bool
  createSearchResult : Bool
  getArticlesByIDs : Bool
deriving DecidableEq, Repr

/-- Go slices built by `append` from a nil slice are nil exactly when they are
empty; this injects the list values of the model into that representation. -/
def goSlice (l : List Int) : Option (List Int) := if l = [] then none else some l

namespace SQLiteDB

/-- sqlite.go createTables: CREATE TABLE IF NOT EXISTS for the three tables
(idempotent; existing rows are untouched). -/
def createTables (st : DBState) : DBState := { st with schemaReady := true }

/-- The fixed article catalog seeded by sqlite.go seedArticles. -/
def seedCatalog : List (GoStr × GoStr) :=
  [ (str "Password Reset Instructions",
     str "To reset your password: 1) Go to the login page 2) Click \x27Forgot Password\x27 3) Enter your email address 4) Check your email for reset instructions 5) Follow the link and create a new password. The reset link expires in 24 hours."),
    (str "VPN Connection Setup",
     str "Setting up VPN connection: 1) Download the VPN client from the IT portal 2) Install using admin credentials 3) Use your domain username and password 4) Connect to the \x27Corporate-Main\x27 server 5) Verify connection by accessing internal resources. Contact IT if you experience connectivity issues."),
    (str "Software Installation Guidelines",
     str "For software installation: 1) Check the approved software list on the IT portal 2) Submit a software request ticket if not approved 3) Admin rights are required for installation 4) IT will remotely install if you don\x27t have admin access 5) All installations must be from official vendors only."),
    (str "Email Configuration Troubleshooting",
     str "Email setup issues: 1) Verify server settings - IMAP: mail.company.com port 993 SSL, SMTP: mail.company.com port 587 STARTTLS 2) Check username format: firstname.lastname@company.com 3) Ensure password is current 4) Clear email cache and restart client 5) For mobile devices, use app-specific passwords."),
    (str "Multi-Factor Authentication Setup",
     str "MFA setup process: 1) Install Microsoft Authenticator app 2) Log into company portal 3) Navigate to Security Settings 4) Click \x27Add Authentication Method\x27 5) Scan QR code with authenticator app 6) Enter verification code 7) MFA is now required for all company logins."),
    (str "Printer Connection Issues",
     str "Printer troubleshooting: 1) Ensure printer is connected to corporate network 2) Install latest printer drivers from manufacturer website 3) Add printer using IP address: 192.168.1.100 4) Check print queue for stuck jobs 5) Restart print spooler service if needed 6) For Mac users, use CUPS interface."),
    (str "File Share Access Problems",
     str "File share access: 1) Connect using \\\\fileserver\\shared 2) Use domain credentials when prompted 3) Map network drive for easier access 4) Check group membership for folder permissions 5) Clear credential cache if authentication fails 6) Contact IT for permission changes."),
    (str "Remote Desktop Configuration",
     str "Remote desktop setup: 1) Enable Remote Desktop on target computer 2) Add user to \x27Remote Desktop Users\x27 group 3) Configure firewall to allow RDP (port 3389) 4) Use Computer Name or IP address to connect 5) For external access, use VPN first 6) Use Network Level Authentication for security."),
    (str "Antivirus Software Management",
     str "Antivirus management: 1) Corporate antivirus is automatically deployed 2) Do not install additional antivirus software 3) Scans run automatically daily at 2 AM 4) Quarantine notifications appear in system tray 5) Report false positives to IT immediately 6) Never disable real-time protection."),
    (str "Data Backup and Recovery",
     str "Backup procedures: 1) OneDrive syncs user documents automatically 2) Critical data should be stored in designated share folders 3) Personal desktop/downloads are not backed up 4) File recovery available for 90 days 5) For urgent recovery, submit priority ticket 6) Test restore procedures quarterly.") ]

/-- One INSERT of the seeding loop (AUTOINCREMENT assigns the next id). -/
def insertSeedArticle (st : DBState) (p : GoStr × GoStr) : DBState :=
  { st with
    articles := st.articles ++ [⟨st.nextArticleId, p.1, p.2⟩],
    nextArticleId := st.nextArticleId + 1 }

/-- sqlite.go seedArticles: count the article rows; if any exist do nothing,
otherwise insert the fixed catalog. -/
def seedArticles (st : DBState) : DBState :=
  if st.articles.length > 0 then st
  else seedCatalog.foldl insertSeedArticle st

/-- sqlite.go Initialize: create the tables, then seed the articles. -/
def Initialize (st : DBState) : DBState := seedArticles (createTables st)

/-- sqlite.go GetAllArticles: SELECT of every article row in scan order. -/
def GetAllArticles (fail : Bool) (st : DBState) : Except String (List Article) :=
  if fail then .error "storage error" else .ok st.articles

/-- sqlite.go GetArticleByID: single-row SELECT; absence surfaces as the
sql.ErrNoRows scan error. -/
def GetArticleByID (fail : Bool) (st : DBState) (id : Int) : Except String Article :=
  if fail then .error "storage error"
  else
    match st.articles.find? (fun a => a.id == id) with
    | some a => .ok a
    | none => .error "sql: no rows in result set"

/-- The result-set logic of sqlite.go GetArticlesByIDs: an empty id list
short-circuits to an empty result without querying; otherwise the SQL
IN-clause scan keeps each article row whose id occurs in the list. -/
def GetArticlesByIDsCore (articles : List Article) (ids : List Int) : List Article :=
  if ids.isEmpty then []
  else articles.filter (fun a => ids.contains a.id)

/-- sqlite.go GetArticlesByIDs with its fault mode. -/
def GetArticlesByIDs (fail : Bool) (st : DBState) (ids : List Int) :
    Except String (List Article) :=
  if fail then .error "storage error" else .ok (GetArticlesByIDsCore st.articles ids)

/-- sqlite.go CreateQuery: INSERT the query text with the current time, then
re-read the row by its last-insert id (collapsed here to returning the
inserted record). -/
def CreateQuery (fail : Bool) (st : DBState) (q : GoStr) :
    Except String QueryRec × DBState :=
  if fail then (.error "storage error", st)
  else
    let rec0 : QueryRec := ⟨st.nextQueryId, q, st.now⟩
    (.ok rec0,
     { st with queries := st.queries ++ [rec0], nextQueryId := st.nextQueryId + 1 })

/-- sqlite.go GetSearchResultByID: single-row SELECT by id, then JSON-decode
the stored id list. -/
def GetSearchResultByID (st : DBState) (id : Int) : Except String SearchResult :=
  match st.searchResults.find? (fun r => r.id == id) with
  | none => .error "sql: no rows in result set"
  | some row =>
    match goUnmarshalIntSlice row.aiRelevantArticlesJson with
    | none => .error "failed to unmarshal article IDs"
    | some ids => .ok ⟨row.id, row.queryId, row.aiSummaryAnswer, ids, row.createdAt⟩

/-- sqlite.go GetSearchResultByQueryID: single-row SELECT by query_id (first
row in scan order), then JSON-decode the stored id list. -/
def GetSearchResultByQueryID (st : DBState) (queryID : Int) : Except String SearchResult :=
  match st.searchResults.find? (fun r => r.queryId == queryID) with
  | none => .error "sql: no rows in result set"
  | some row =>
    match goUnmarshalIntSlice row.aiRelevantArticlesJson with
    | none => .error "failed to unmarshal article IDs"
    | some ids => .ok ⟨row.id, row.queryId, row.aiSummaryAnswer, ids, row.createdAt⟩

/-- sqlite.go CreateSearchResult: JSON-encode the id list, INSERT the row with
the current time, and re-read it by its last-insert id. -/
def CreateSearchResult (fail : Bool) (st : DBState) (queryID : Int) (summary : GoStr)
    (relevantArticleIDs : Option (List Int)) : Except String SearchResult × DBState :=
  if fail then (.error "storage error", st)
  else
    let row : SearchResultRow :=
      ⟨st.nextResultId, queryID, summary, goMarshalIntSlice relevantArticleIDs, st.now⟩
    let st2 : DBState :=
      { st with
        searchResults := st.searchResults ++ [row],
        nextResultId := st.nextResultId + 1 }
    (GetSearchResultByID st2 row.id, st2)

end SQLiteDB

/-- models.SearchRequest: the decoded POST /search-query body. -/
structure SearchRequest where
  query : GoStr
deriving DecidableEq, Repr

/-- models.SearchResponse: the externally visible search result. -/
structure SearchResponse where
  query : GoStr
  aiSummaryAnswer : GoStr
  aiRelevantArticles : List Article
  queryId : Int
  timestamp : Nat
deriving DecidableEq, Repr

/-- The JSON payload of an HTTP response (error detail text omitted). -/
inductive HttpBody where
  | searchResponse (r : SearchResponse)
  | article (a : Article)
  | articles (l : List Article)
  | err (e : GoStr)
  | health
deriving DecidableEq, Repr

/-- An HTTP response: status code and JSON payload. -/
structure HttpResponse where
  status : Nat
  body : HttpBody
deriving DecidableEq, Repr

namespace SearchService

/-- service.SearchService.ProcessSearchQuery (search.go lines 25-66): the
five-step pipeline — create the Query row, fetch all articles, run the
relevance analysis `aiF`, save the SearchResult row, fetch the relevant
Article rows — each failure aborting with its own wrapped error and leaving
the state written so far in place. -/
def ProcessSearchQuery (f : Faults)
    (aiF : GoStr → List Article → Except String AIAnalysisResult)
    (st : DBState) (queryText : GoStr) : Except String SearchResponse × DBState :=
  match SQLiteDB.CreateQuery f.createQuery st queryText with
  | (.error e, st1) => (.error ("failed to create query: " ++ e), st1)
  | (.ok query, st1) =>
    match SQLiteDB.GetAllArticles f.getAllArticles st1 with
    | .error e => (.error ("failed to get articles: " ++ e), st1)
    | .ok articles =>
      match aiF queryText articles with
      | .error e => (.error ("failed to analyze query: " ++ e), st1)
      | .ok aiResult =>
        match SQLiteDB.CreateSearchResult f.createSearchResult st1 query.id
            aiResult.summary (goSlice aiResult.relevantArticles) with
        | (.error e, st2) => (.error ("failed to save search result: " ++ e), st2)
        | (.ok _, st2) =>
          match SQLiteDB.GetArticlesByIDs f.getArticlesByIDs st2
              aiResult.relevantArticles with
          | .error e => (.error ("failed to get relevant articles: " ++ e), st2)
          | .ok relevantArticles =>
            (.ok ⟨queryText, aiResult.summary, relevantArticles, query.id,
              query.createdAt⟩, st2)

/-- service.SearchService.GetArticleByID: direct delegation to storage. -/
def GetArticleByID (fail : Bool) (st : DBState) (id : Int) : Except String Article :=
  SQLiteDB.GetArticleByID fail st id

end SearchService

namespace SearchHandler

/-- handlers.SearchHandler.SearchQuery (handlers.go lines 27-48): reject an
undecodable body or a blank query with 400 before touching the service;
otherwise run the pipeline, mapping failure to 500 and success to 200.  The
body argument is `none` when JSON decoding of the request failed. -/
def SearchQuery (f : Faults)
    (aiF : GoStr → List Article → Except String AIAnalysisResult)
    (st : DBState) (body : Option SearchRequest) : HttpResponse × DBState :=
  match body with
  | none => (⟨400, .err (str "Invalid JSON")⟩, st)
  | some req =>
    if goTrimSpace req.query = [] then (⟨400, .err (str "Query is required")⟩, st)
    else
      match SearchService.ProcessSearchQuery f aiF st req.query with
      | (.error _, st2) => (⟨500, .err (str "Failed to process search query")⟩, st2)
      | (.ok resp, st2) => (⟨200, .searchResponse resp⟩, st2)

/-- handlers.SearchHandler.GetArticle (handlers.go lines 51-66): 400 when the
id path segment does not parse as an integer; otherwise look the article up,
mapping any error — absence or storage failure alike — to 404. -/
def GetArticle (fail : Bool) (st : DBState) (idStr : GoStr) : HttpResponse :=
  match goAtoi idStr with
  | none => ⟨400, .err (str "Invalid article ID")⟩
  | some id =>
    match SearchService.GetArticleByID fail st id with
    | .error _ => ⟨404, .err (str "Article not found")⟩
    | .ok a => ⟨200, .article a⟩

end SearchHandler

/-- A freshly opened database file: no schema, no rows, counters at 1. -/
def emptyDB : DBState := ⟨false, [], [], [], 1, 1, 1, 0⟩

/-- An eight-way constant-branch else-if chain collapses to a single test of
the disjunction of its conditions. -/
lemma chain8 {α : Type} (b1 b2 b3 b4 b5 b6 b7 b8 : Bool) (x y : α) :
    (if b1 then x else if b2 then x else if b3 then x else if b4 then x
     else if b5 then x else if b6 then x else if b7 then x else if b8 then x else y)
      = if (b1 || b2 || b3 || b4 || b5 || b6 || b7 || b8) then x else y := by
  cases b1 <;> cases b2 <;> cases b3 <;> cases b4 <;>
    cases b5 <;> cases b6 <;> cases b7 <;> cases b8 <;> rfl

/-- Appending under a boolean alternative factors out of the branch. -/
lemma append_ite {α : Type} (b : Bool) (x : List α) (v : α) :
    (if b then x ++ [v] else x) = x ++ (if b then [v] else []) := by
  cases b <;> simp

/-- One step of the mock keyword loop appends the article id exactly when the
spec-side match predicate holds. -/
lemma matchStep_eq (query : GoStr) (acc : List Int) (a : Article) :
    MockAIService.matchStep (goToLower query) acc a
      = acc ++ (if HeuristicSpec.articleMatches query a then [a.id] else []) := by
  unfold MockAIService.matchStep HeuristicSpec.articleMatches HeuristicSpec.keywords
  rw [chain8, append_ite]
  simp only [List.any_cons, List.any_nil, Bool.or_false, Bool.or_assoc]

/-- The mock keyword loop computes the spec-side relevant-id list. -/
lemma foldl_matchStep_eq (query : GoStr) (articles : List Article) (acc : List Int) :
    articles.foldl (MockAIService.matchStep (goToLower query)) acc
      = acc ++ HeuristicSpec.relevantIDs query articles := by
  induction articles generalizing acc with
  | nil => simp [HeuristicSpec.relevantIDs]
  | cons a rest ih =>
    simp only [List.foldl_cons, ih, matchStep_eq, HeuristicSpec.relevantIDs,
      List.filter_cons]
    by_cases h : HeuristicSpec.articleMatches query a = true
    · simp [h, List.append_assoc]
    · simp [h]

/-- Claim C2: the heuristic strategy (`MockAIService.AnalyzeQuery`) coincides
with the reference definition assembled from the spec's words
(`HeuristicSpec.analyze`): keyword-filtered article ids in article-iteration
order, and the summary chosen by the fixed priority password, vpn, email,
printer, generic-found, generic-not-found. -/
theorem MockAIService.AnalyzeQuery_eq_spec (query : GoStr) (articles : List Article) :
    MockAIService.AnalyzeQuery query articles = .ok (HeuristicSpec.analyze query articles) := by
  have hrel : articles.foldl (MockAIService.matchStep (goToLower query)) []
      = HeuristicSpec.relevantIDs query articles := by
    simpa using foldl_matchStep_eq query articles []
  simp only [MockAIService.AnalyzeQuery, HeuristicSpec.analyze, HeuristicSpec.summary, hrel,
    Except.ok.injEq, AIAnalysisResult.mk.injEq, and_true]
  simp [List.length_pos, gt_iff_lt]

/-- Claim C10: when the supplied articles have pairwise-distinct ids, the
heuristic strategy's relevant-id list is duplicate-free (the per-article
else-if chain includes each article at most once). -/
theorem MockAIService.AnalyzeQuery_relevant_nodup (query : GoStr) (articles : List Article)
    (r : AIAnalysisResult) (hids : (articles.map Article.id).Nodup)
    (h : MockAIService.AnalyzeQuery query articles = .ok r) :
    r.relevantArticles.Nodup := by
  simp only [MockAIService.AnalyzeQuery, Except.ok.injEq] at h
  have hrel : r.relevantArticles = HeuristicSpec.relevantIDs query articles := by
    rw [← h]
    simpa using foldl_matchStep_eq query articles []
  rw [hrel, HeuristicSpec.relevantIDs]
  exact hids.sublist ((List.filter_sublist articles).map Article.id)

/-- Witness for C10 at a concrete query, article set and analysis result. -/
theorem MockAIService.AnalyzeQuery_relevant_nodup_witness :
    (⟨MockAIService.passwordSummary, [1]⟩ : AIAnalysisResult).relevantArticles.Nodup :=
  MockAIService.AnalyzeQuery_relevant_nodup (str "password")
    [⟨1, str "Password Reset", str "p"⟩] ⟨MockAIService.passwordSummary, [1]⟩
    (by decide) rfl

/-- Every id collected by the token loop of `parseArticleIds` passes the
`articleExists` check. -/
lemma tokenStep_foldl_valid (articles : List Article) (toks : List GoStr) :
    ∀ acc, (∀ id ∈ acc, GeminiService.articleExists id articles = true) →
      ∀ id ∈ toks.foldl (GeminiService.tokenStep articles) acc,
        GeminiService.articleExists id articles = true := by
  induction toks with
  | nil => intro acc hacc; simpa using hacc
  | cons t rest ih =>
    intro acc hacc
    simp only [List.foldl_cons]
    apply ih
    intro id hid
    unfold GeminiService.tokenStep at hid
    rcases hmatch : goAtoi (goTrimSpace t) with _ | v
    · rw [hmatch] at hid; exact hacc id hid
    · rw [hmatch] at hid
      by_cases hex : GeminiService.articleExists v articles = true
      · simp only [hex, if_true] at hid
        rcases List.mem_append.mp hid with h | h
        · exact hacc id h
        · exact (List.mem_singleton.mp h) ▸ hex
      · simp only [hex, if_false] at hid
        exact hacc id hid

/-- Every id produced by `parseArticleIds` passes the `articleExists` check. -/
lemma parseArticleIds_valid (s : GoStr) (articles : List Article) :
    ∀ id ∈ GeminiService.parseArticleIds s articles,
      GeminiService.articleExists id articles = true := by
  unfold GeminiService.parseArticleIds
  split
  · exact tokenStep_foldl_valid articles _ [] (by simp)
  · simp

/-- The line loop of `parseResponse` only ever accumulates valid ids. -/
lemma processLine_foldl_valid (articles : List Article) (lines : List GoStr) :
    ∀ st : GoStr × List Int,
      (∀ id ∈ st.2, GeminiService.articleExists id articles = true) →
      ∀ id ∈ (lines.foldl (GeminiService.processLine articles) st).2,
        GeminiService.articleExists id articles = true := by
  induction lines with
  | nil => intro st hst; simpa using hst
  | cons l rest ih =>
    intro st hst
    simp only [List.foldl_cons]
    apply ih
    intro id hid
    unfold GeminiService.processLine at hid
    simp only at hid
    split at hid
    · exact hst id hid
    · split at hid
      · rcases List.mem_append.mp hid with h | h
        · exact hst id h
        · exact parseArticleIds_valid _ articles id h
      · exact hst id hid

/-- A line that carries the RELEVANT_ARTICLES prefix cannot also carry the
SUMMARY prefix (their first characters differ). -/
lemma summary_relevant_exclusive (s : GoStr)
    (h : goHasPre s (str "RELEVANT_ARTICLES:") = true) :
    goHasPre s (str "SUMMARY:") = false := by
  cases s with
  | nil => exact absurd h (by decide)
  | cons c cs =>
    rw [show str "RELEVANT_ARTICLES:" = 'R' :: str "ELEVANT_ARTICLES:" from rfl] at h
    rw [show str "SUMMARY:" = 'S' :: str "UMMARY:" from rfl]
    simp only [goHasPre, Bool.and_eq_true, beq_iff_eq] at h
    obtain ⟨hc, -⟩ := h
    subst hc
    rfl

/-- A line recognized by neither prefix leaves the parse state unchanged. -/
lemma processLine_junk (articles : List Article) (st : GoStr × List Int) (rawLine : GoStr)
    (h1 : goHasPre (goTrimSpace rawLine) (str "SUMMARY:") = false)
    (h2 : goHasPre (goTrimSpace rawLine) (str "RELEVANT_ARTICLES:") = false) :
    GeminiService.processLine articles st rawLine = st := by
  unfold GeminiService.processLine
  simp [h1, h2]

/-- A SUMMARY line and a RELEVANT_ARTICLES line may be processed in either
order with the same outcome. -/
lemma processLine_comm (articles : List Article) (st : GoStr × List Int) (l1 l2 : GoStr)
    (h1 : goHasPre (goTrimSpace l1) (str "SUMMARY:") = true)
    (h2 : goHasPre (goTrimSpace l2) (str "RELEVANT_ARTICLES:") = true) :
    GeminiService.processLine articles (GeminiService.processLine articles st l1) l2
      = GeminiService.processLine articles (GeminiService.processLine articles st l2) l1 := by
  have h2S := summary_relevant_exclusive _ h2
  unfold GeminiService.processLine
  simp [h1, h2, h2S]

/-- Claim C9: the external-generative strategy's response parser is total
(always returns with a nil error); it keeps only ids passing the
`articleExists` filter (foreign and malformed tokens are skipped); it
substitutes the fixed fallback summary exactly when the extracted summary is
empty; it ignores unrecognized lines, so the two recognized lines are found in
any order amid extra surrounding lines; and a `none` or empty id payload
yields no matches. -/
theorem GeminiService.parseResponse_total_and_tolerant (response : GoStr)
    (articles : List Article) :
    (∃ r, GeminiService.parseResponse response articles = .ok r)
    ∧ (∀ r, GeminiService.parseResponse response articles = .ok r →
        (∀ id ∈ r.relevantArticles, GeminiService.articleExists id articles = true)
        ∧ ((GeminiService.linesState response articles).1 = [] →
            r.summary = GeminiService.fallbackSummary)
        ∧ ((GeminiService.linesState response articles).1 ≠ [] →
            r.summary = (GeminiService.linesState response articles).1))
    ∧ (∀ (st : GoStr × List Int) (rawLine : GoStr),
        goHasPre (goTrimSpace rawLine) (str "SUMMARY:") = false →
        goHasPre (goTrimSpace rawLine) (str "RELEVANT_ARTICLES:") = false →
        GeminiService.processLine articles st rawLine = st)
    ∧ (∀ (st : GoStr × List Int) (l1 l2 : GoStr),
        goHasPre (goTrimSpace l1) (str "SUMMARY:") = true →
        goHasPre (goTrimSpace l2) (str "RELEVANT_ARTICLES:") = true →
        GeminiService.processLine articles (GeminiService.processLine articles st l1) l2
          = GeminiService.processLine articles (GeminiService.processLine articles st l2) l1)
    ∧ GeminiService.parseArticleIds (str "none") articles = []
    ∧ GeminiService.parseArticleIds [] articles = [] := by
  refine ⟨⟨_, rfl⟩, ?_, processLine_junk articles, processLine_comm articles, ?_, ?_⟩
  · intro r h
    simp only [GeminiService.parseResponse, Except.ok.injEq] at h
    subst h
    refine ⟨?_, ?_, ?_⟩
    · intro id hid
      simp only at hid
      unfold GeminiService.linesState at hid
      exact processLine_foldl_valid articles _ ([], []) (by simp) id hid
    · intro hnil; simp [hnil]
    · intro hne; simp [hne]
  · simp [GeminiService.parseArticleIds]
  · simp [GeminiService.parseArticleIds]

/-- Witness for C9: an unrecognized line leaves a concrete parse state
untouched. -/
theorem GeminiService.parseResponse_total_and_tolerant_witness :
    GeminiService.processLine [⟨1, str "T", str "C"⟩] (str "s", [1]) (str "extra line")
      = (str "s", [1]) :=
  (GeminiService.parseResponse_total_and_tolerant (str "") [⟨1, str "T", str "C"⟩]).2.2.1
    (str "s", [1]) (str "extra line") (by decide) (by decide)

lemma digitChar_isDigit : ∀ n < 10, (digitChar n).isDigit = true := by decide

lemma digitVal_digitChar : ∀ n < 10, digitVal (digitChar n) = n := by decide

lemma foldDigits_append_one (ds : List Char) (c : Char) :
    foldDigits (ds ++ [c]) = foldDigits ds * 10 + digitVal c := by
  simp [foldDigits, List.foldl_append]

lemma natToDigitsAux_spec : ∀ (fuel n : Nat), n < fuel →
    natToDigitsAux fuel n ≠ []
    ∧ (∀ c ∈ natToDigitsAux fuel n, c.isDigit = true)
    ∧ foldDigits (natToDigitsAux fuel n) = n := by
  intro fuel
  induction fuel with
  | zero => intro n h; exact absurd h (by omega)
  | succ f ih =>
    intro n h
    by_cases h10 : n < 10
    · refine ⟨by simp [natToDigitsAux, h10], ?_, ?_⟩
      · simp only [natToDigitsAux, h10, if_true]
        simpa using digitChar_isDigit n h10
      · simp only [natToDigitsAux, h10, if_true]
        simp [foldDigits, digitVal_digitChar n h10]
    · have hdiv : n / 10 < n := Nat.div_lt_self (by omega) (by omega)
      have hrec := ih (n / 10) (by omega)
      refine ⟨by simp [natToDigitsAux, h10], ?_, ?_⟩
      · simp only [natToDigitsAux, h10, if_false]
        intro c hc
        rcases List.mem_append.mp hc with h1 | h1
        · exact hrec.2.1 c h1
        · simpa using (List.mem_singleton.mp h1) ▸
            digitChar_isDigit (n % 10) (Nat.mod_lt n (by omega))
      · simp only [natToDigitsAux, h10, if_false]
        rw [foldDigits_append_one, hrec.2.2,
          digitVal_digitChar (n % 10) (Nat.mod_lt n (by omega))]
        omega

lemma natToDigits_ne_nil (n : Nat) : natToDigits n ≠ [] :=
  (natToDigitsAux_spec (n + 1) n (by omega)).1

lemma natToDigits_all_digits (n : Nat) : ∀ c ∈ natToDigits n, c.isDigit = true :=
  (natToDigitsAux_spec (n + 1) n (by omega)).2.1

lemma foldDigits_natToDigits (n : Nat) : foldDigits (natToDigits n) = n :=
  (natToDigitsAux_spec (n + 1) n (by omega)).2.2

lemma takeWhile_append_all {p : Char → Bool} (l1 l2 : List Char)
    (h1 : ∀ c ∈ l1, p c = true) (h2 : l2.takeWhile p = []) :
    (l1 ++ l2).takeWhile p = l1 := by
  induction l1 with
  | nil => simpa using h2
  | cons a t ih =>
    rw [List.cons_append, List.takeWhile_cons, h1 a (by simp)]
    simp [ih (fun c hc => h1 c (by simp [hc]))]

lemma dropWhile_append_all {p : Char → Bool} (l1 l2 : List Char)
    (h1 : ∀ c ∈ l1, p c = true) (h2 : l2.takeWhile p = []) :
    (l1 ++ l2).dropWhile p = l2 := by
  induction l1 with
  | nil =>
    cases l2 with
    | nil => rfl
    | cons c t =>
      rw [List.takeWhile_cons] at h2
      rw [List.nil_append, List.dropWhile_cons]
      rcases hpc : p c with _ | _
      · simp [hpc]
      · rw [hpc] at h2; simp at h2
  | cons a t ih =>
    rw [List.cons_append, List.dropWhile_cons, h1 a (by simp)]
    simpa using ih (fun c hc => h1 c (by simp [hc]))

lemma parseDigitsRun_append (m : Nat) (rest : GoStr)
    (hrest : rest.takeWhile Char.isDigit = []) :
    parseDigitsRun (natToDigits m ++ rest) = some (m, rest) := by
  unfold parseDigitsRun
  rw [takeWhile_append_all _ _ (natToDigits_all_digits m) hrest,
    dropWhile_append_all _ _ (natToDigits_all_digits m) hrest]
  simp [List.isEmpty_iff, natToDigits_ne_nil m, foldDigits_natToDigits m]

lemma parseIntToken_pos (cs : GoStr) (h : cs.head? ≠ some '-') :
    parseIntToken cs = (parseDigitsRun cs).map (fun p => ((p.1 : Int), p.2)) := by
  cases cs with
  | nil => rfl
  | cons c t =>
    unfold parseIntToken
    split
    · next rest heq =>
      injection heq with h1 _
      subst h1
      simp at h
    · rfl

lemma parseIntToken_neg (xs : GoStr) :
    parseIntToken ('-' :: xs) = (parseDigitsRun xs).map (fun p => (-(p.1 : Int), p.2)) := rfl

lemma head_ne_dash (m : Nat) (rest : GoStr) :
    (natToDigits m ++ rest).head? ≠ some '-' := by
  rcases hnd : natToDigits m with _ | ⟨c, t⟩
  · exact absurd hnd (natToDigits_ne_nil m)
  · have hc : c.isDigit = true := natToDigits_all_digits m c (by rw [hnd]; simp)
    intro h
    simp only [List.cons_append, List.head?_cons, Option.some.injEq] at h
    rw [h] at hc
    exact absurd hc (by decide)

lemma parseIntToken_intToDigits (i : Int) (rest : GoStr)
    (hrest : rest.takeWhile Char.isDigit = []) :
    parseIntToken (intToDigits i ++ rest) = some (i, rest) := by
  unfold intToDigits
  by_cases hi : i < 0
  · rw [if_pos hi, List.cons_append, parseIntToken_neg, parseDigitsRun_append _ _ hrest]
    have h2 : -(((-i).toNat : Int)) = i := by omega
    show some (-(((-i).toNat : Int)), rest) = some (i, rest)
    rw [h2]
  · rw [if_neg hi, parseIntToken_pos _ (head_ne_dash _ _), parseDigitsRun_append _ _ hrest]
    have h2 : ((i.toNat : Int)) = i := by omega
    show some (((i.toNat : Int)), rest) = some (i, rest)
    rw [h2]

lemma intToDigits_ne_nil (i : Int) : intToDigits i ≠ [] := by
  unfold intToDigits
  split
  · simp
  · exact natToDigits_ne_nil _

lemma encElems_cons (i j : Int) (l : List Int) :
    encElems (i :: j :: l) = intToDigits i ++ ',' :: encElems (j :: l) := rfl

lemma encElems_length (l : List Int) (i : Int) :
    l.length + 1 ≤ (encElems (i :: l)).length := by
  induction l generalizing i with
  | nil => simpa [encElems] using List.length_pos.mpr (intToDigits_ne_nil i)
  | cons j t ih =>
    rw [encElems_cons]
    have h1 := ih j
    have h2 := List.length_pos.mpr (intToDigits_ne_nil i)
    simp only [List.length_append, List.length_cons] at *
    omega

lemma comma_run_empty (xs : GoStr) : (',' :: xs).takeWhile Char.isDigit = [] := by
  have hc : (',').isDigit = false := by decide
  simp [List.takeWhile_cons, hc]

lemma decElemsAux_encElems (l : List Int) : ∀ (i : Int) (fuel : Nat),
    l.length + 1 ≤ fuel →
    decElemsAux fuel (encElems (i :: l) ++ [']']) = some (i :: l) := by
  induction l with
  | nil =>
    intro i fuel hfuel
    obtain ⟨f, rfl⟩ : ∃ f, fuel = f + 1 := ⟨fuel - 1, by omega⟩
    have henc : encElems [i] = intToDigits i := rfl
    rw [henc]
    unfold decElemsAux
    rw [parseIntToken_intToDigits i [']'] (by decide)]
    rfl
  | cons j t ih =>
    intro i fuel hfuel
    obtain ⟨f, rfl⟩ : ∃ f, fuel = f + 1 := ⟨fuel - 1, by omega⟩
    rw [encElems_cons, List.append_assoc, List.cons_append]
    unfold decElemsAux
    rw [parseIntToken_intToDigits i (',' :: (encElems (j :: t) ++ [']'])) (comma_run_empty _)]
    have hrec := ih j f (by simp at hfuel ⊢; omega)
    simp only [hrec]

/-- The JSON codec on `[]int` values round-trips exactly, including the
nil-versus-empty distinction (`null` versus `[]`). -/
lemma goUnmarshal_goMarshal (s : Option (List Int)) :
    goUnmarshalIntSlice (goMarshalIntSlice s) = some s := by
  match s with
  | none => rfl
  | some [] => rfl
  | some (i :: l) =>
    have hmar : goMarshalIntSlice (some (i :: l)) = '[' :: (encElems (i :: l) ++ [']']) := rfl
    have hn : ('[' :: (encElems (i :: l) ++ [']'])) ≠ str "null" := by
      intro h
      rw [show str "null" = 'n' :: str "ull" from rfl] at h
      injection h with h1 _
      exact absurd h1 (by decide)
    have hb : ('[' :: (encElems (i :: l) ++ [']'])) ≠ str "[]" := by
      intro h
      rw [show str "[]" = '[' :: [']'] from rfl] at h
      injection h with _ h2
      have hlen := congrArg List.length h2
      have := encElems_length l i
      simp only [List.length_append, List.length_cons, List.length_nil] at hlen
      omega
    rw [hmar]
    unfold goUnmarshalIntSlice
    rw [if_neg hn, if_neg hb]
    show (decElemsAux (encElems (i :: l) ++ [']']).length
      (encElems (i :: l) ++ [']'])).map some = some (some (i :: l))
    rw [decElemsAux_encElems l i _ (by
      have := encElems_length l i
      simp only [List.length_append, List.length_cons, List.length_nil]
      omega)]
    rfl

/-- Claim C6: the fetch-articles-by-IDs storage operation returns only
articles of the table whose id appears in the input list, without duplicates
(given the primary-key invariant that table ids are pairwise distinct), and an
empty input list yields an empty result without querying; unmatched ids are
simply omitted rather than causing an error. -/
theorem SQLiteDB.GetArticlesByIDs_subset_nodup (st : DBState) (ids : List Int)
    (hpk : (st.articles.map Article.id).Nodup) (res : List Article)
    (h : SQLiteDB.GetArticlesByIDs false st ids = .ok res) :
    (∀ a ∈ res, a ∈ st.articles ∧ a.id ∈ ids)
    ∧ (res.map Article.id).Nodup
    ∧ (ids = [] → res = []) := by
  simp only [SQLiteDB.GetArticlesByIDs, Bool.false_eq_true, if_false,
    Except.ok.injEq] at h
  subst h
  unfold SQLiteDB.GetArticlesByIDsCore
  by_cases hids : ids.isEmpty = true
  · simp [hids]
  · rw [if_neg hids]
    refine ⟨?_, ?_, ?_⟩
    · intro a ha
      rcases List.mem_filter.mp ha with ⟨hmem, hcont⟩
      exact ⟨hmem, List.mem_of_elem_eq_true hcont⟩
    · exact hpk.sublist ((List.filter_sublist st.articles).map Article.id)
    · intro hnil
      rw [hnil] at hids
      simp at hids

/-- Witness for C6 at a concrete table and id list. -/
theorem SQLiteDB.GetArticlesByIDs_subset_nodup_witness :
    (∀ a ∈ [(⟨2, str "c", str "d"⟩ : Article)],
        a ∈ [(⟨1, str "a", str "b"⟩ : Article), ⟨2, str "c", str "d"⟩] ∧ a.id ∈ [2, 5])
    ∧ (([(⟨2, str "c", str "d"⟩ : Article)]).map Article.id).Nodup
    ∧ (([2, 5] : List Int) = [] → [(⟨2, str "c", str "d"⟩ : Article)] = []) :=
  SQLiteDB.GetArticlesByIDs_subset_nodup
    ⟨true, [⟨1, str "a", str "b"⟩, ⟨2, str "c", str "d"⟩], [], [], 3, 1, 1, 0⟩
    [2, 5] (by decide) [⟨2, str "c", str "d"⟩] rfl

/-- The seeding loop preserves the schema flag. -/
lemma foldl_insertSeed_schema (ps : List (GoStr × GoStr)) :
    ∀ s : DBState, (ps.foldl SQLiteDB.insertSeedArticle s).schemaReady = s.schemaReady := by
  induction ps with
  | nil => intro s; rfl
  | cons p rest ih => intro s; simpa using ih (SQLiteDB.insertSeedArticle s p)

/-- The seeding loop inserts one article row per catalog entry. -/
lemma foldl_insertSeed_length (ps : List (GoStr × GoStr)) :
    ∀ s : DBState,
      ((ps.foldl SQLiteDB.insertSeedArticle s).articles).length
        = s.articles.length + ps.length := by
  induction ps with
  | nil => intro s; simp
  | cons p rest ih =>
    intro s
    simp only [List.foldl_cons, ih (SQLiteDB.insertSeedArticle s p)]
    simp [SQLiteDB.insertSeedArticle]
    omega

/-- Setting an already-set schema flag is the identity. -/
lemma setSchema_self (s : DBState) (h : s.schemaReady = true) :
    { s with schemaReady := true } = s := by
  cases s
  simp_all

lemma Initialize_schemaReady (st : DBState) :
    (SQLiteDB.Initialize st).schemaReady = true := by
  unfold SQLiteDB.Initialize SQLiteDB.seedArticles
  split
  · rfl
  · rw [foldl_insertSeed_schema]
    rfl

lemma Initialize_articles_pos (st : DBState) :
    0 < (SQLiteDB.Initialize st).articles.length := by
  unfold SQLiteDB.Initialize SQLiteDB.seedArticles
  split
  · next h => simpa [SQLiteDB.createTables] using h
  · rw [foldl_insertSeed_length]
    simp [SQLiteDB.seedCatalog]

/-- Claim C7: storage initialization is idempotent — the schema creation is
IF-NOT-EXISTS and re-seeding is skipped once the article table is nonempty —
so a second initialization changes nothing and in particular the article count
is unchanged. -/
theorem SQLiteDB.Initialize_idempotent (st : DBState) :
    SQLiteDB.Initialize (SQLiteDB.Initialize st) = SQLiteDB.Initialize st
    ∧ (SQLiteDB.Initialize (SQLiteDB.Initialize st)).articles.length
        = (SQLiteDB.Initialize st).articles.length := by
  have hidem : SQLiteDB.Initialize (SQLiteDB.Initialize st) = SQLiteDB.Initialize st := by
    have hct : SQLiteDB.createTables (SQLiteDB.Initialize st) = SQLiteDB.Initialize st :=
      setSchema_self _ (Initialize_schemaReady st)
    show SQLiteDB.seedArticles (SQLiteDB.createTables (SQLiteDB.Initialize st))
      = SQLiteDB.Initialize st
    rw [hct]
    unfold SQLiteDB.seedArticles
    rw [if_pos (Initialize_articles_pos st)]
  exact ⟨hidem, by rw [hidem]⟩

/-- Dropping by a predicate every element satisfies drops everything. -/
lemma dropWhile_eq_nil_of_all {p : Char → Bool} (l : List Char)
    (h : ∀ c ∈ l, p c = true) : l.dropWhile p = [] := by
  induction l with
  | nil => rfl
  | cons c t ih =>
    have hc := h c (by simp)
    simp [List.dropWhile_cons, hc]
    intro x hx
    exact h x (by simp [hx])

/-- Claim C3: a search request whose query text is empty or all-whitespace is
answered 400 by the HTTP layer before the orchestration component runs, and
the database state — in particular the queries table — is left untouched. -/
theorem SearchHandler.SearchQuery_blank_400 (f : Faults)
    (aiF : GoStr → List Article → Except String AIAnalysisResult)
    (st : DBState) (req : SearchRequest)
    (h : ∀ c ∈ req.query, c.isWhitespace = true) :
    SearchHandler.SearchQuery f aiF st (some req)
      = (⟨400, .err (str "Query is required")⟩, st) := by
  have htrim : goTrimSpace req.query = [] := by
    unfold goTrimSpace
    rw [dropWhile_eq_nil_of_all req.query h]
    rfl
  simp [SearchHandler.SearchQuery, htrim]

/-- Witness for C3 at a concrete whitespace-only request. -/
theorem SearchHandler.SearchQuery_blank_400_witness :
    SearchHandler.SearchQuery ⟨false, false, false, false⟩ MockAIService.AnalyzeQuery
      emptyDB (some ⟨str "  \t "⟩)
      = (⟨400, .err (str "Query is required")⟩, emptyDB) :=
  SearchHandler.SearchQuery_blank_400 ⟨false, false, false, false⟩
    MockAIService.AnalyzeQuery emptyDB ⟨str "  \t "⟩ (by decide)

/-- Counterexample to C8 as stated: with article 1 present but the storage
lookup failing (connection outage), GET /articles/1 answers 404, not the 500
the claim requires for storage outages. -/
theorem SearchHandler.GetArticle_outage_counterexample :
    (SearchHandler.GetArticle true
        ⟨true, [⟨1, str "t", str "c"⟩], [], [], 2, 1, 1, 0⟩ (str "1")).status = 404
    ∧ (SearchHandler.GetArticle true
        ⟨true, [⟨1, str "t", str "c"⟩], [], [], 2, 1, 1, 0⟩ (str "1")).status ≠ 500 := by
  constructor
  · rfl
  · decide

/-- Claim C8 (amended): a non-integer id path segment yields 400; an absent
article yields 404 and never 200; but storage outages are not distinguished
from absence — every lookup error, outage included, also yields 404 (the
handler maps all errors from the article lookup to 404, never 500), and a 200
response occurs exactly when the lookup succeeded without fault. -/
theorem SearchHandler.GetArticle_statuses (fail : Bool) (st : DBState) (idStr : GoStr) :
    (goAtoi idStr = none →
      SearchHandler.GetArticle fail st idStr = ⟨400, .err (str "Invalid article ID")⟩)
    ∧ (∀ id, goAtoi idStr = some id →
        st.articles.find? (fun a => a.id == id) = none →
        (SearchHandler.GetArticle fail st idStr).status = 404)
    ∧ (∀ id, goAtoi idStr = some id → fail = true →
        (SearchHandler.GetArticle fail st idStr).status = 404)
    ∧ (∀ a, SearchHandler.GetArticle fail st idStr = ⟨200, .article a⟩ →
        fail = false ∧ ∃ id, goAtoi idStr = some id
          ∧ st.articles.find? (fun x => x.id == id) = some a) := by
  refine ⟨?_, ?_, ?_, ?_⟩
  · intro h
    simp [SearchHandler.GetArticle, h]
  · intro id hid hfind
    simp only [SearchHandler.GetArticle, hid]
    unfold SearchService.GetArticleByID SQLiteDB.GetArticleByID
    cases fail <;> simp [hfind]
  · intro id hid hf
    subst hf
    simp [SearchHandler.GetArticle, hid, SearchService.GetArticleByID,
      SQLiteDB.GetArticleByID]
  · intro a h
    unfold SearchHandler.GetArticle at h
    split at h
    · simp at h
    · next id hid =>
      unfold SearchService.GetArticleByID SQLiteDB.GetArticleByID at h
      split at h
      · simp at h
      · next a2 hok =>
        simp only [HttpResponse.mk.injEq, HttpBody.article.injEq] at h
        cases hf : fail
        · rw [hf] at hok
          simp only [Bool.false_eq_true, if_false] at hok
          rcases hfind : st.articles.find? (fun x => x.id == id) with _ | a3
          · rw [hfind] at hok
            simp at hok
          · rw [hfind] at hok
            simp at hok
            exact ⟨rfl, id, hid, by rw [hfind, hok, h.2]⟩
        · rw [hf] at hok
          simp at hok

/-- Witness for C8 (amended) at a concrete non-integer id. -/
theorem SearchHandler.GetArticle_statuses_witness :
    SearchHandler.GetArticle false emptyDB (str "abc")
      = ⟨400, .err (str "Invalid article ID")⟩ :=
  (SearchHandler.GetArticle_statuses false emptyDB (str "abc")).1 (by decide)

/-- `find?` skips a leading block in which nothing satisfies the predicate. -/
lemma find?_append_right {α : Type} (p : α → Bool) (l1 l2 : List α)
    (h : ∀ x ∈ l1, p x = false) : (l1 ++ l2).find? p = l2.find? p := by
  induction l1 with
  | nil => rfl
  | cons a t ih =>
    rw [List.cons_append, List.find?_cons, h a (by simp)]
    exact ih (fun x hx => h x (by simp [hx]))

/-- Claim C5: creating a SearchResult with any relevant-article-ID slice and
re-fetching it by its owning query's id returns the very same slice — the
serialized list round-trips losslessly, order preserved — provided the usual
AUTOINCREMENT freshness invariant holds and the query has no earlier result
row (the by-query-ID lookup returns the first row in scan order). -/
theorem SQLiteDB.CreateSearchResult_roundtrip (st : DBState) (qid : Int)
    (summary : GoStr) (rids : Option (List Int))
    (hid : ∀ r ∈ st.searchResults, r.id ≠ st.nextResultId)
    (hq : ∀ r ∈ st.searchResults, r.queryId ≠ qid) :
    ∃ (rec0 : SearchResult) (st2 : DBState),
      SQLiteDB.CreateSearchResult false st qid summary rids = (.ok rec0, st2)
      ∧ SQLiteDB.GetSearchResultByQueryID st2 qid = .ok rec0
      ∧ rec0.aiRelevantArticles = rids := by
  have hidf : (st.searchResults
      ++ [(⟨st.nextResultId, qid, summary, goMarshalIntSlice rids, st.now⟩ : SearchResultRow)]).find?
        (fun r => r.id == st.nextResultId)
      = some ⟨st.nextResultId, qid, summary, goMarshalIntSlice rids, st.now⟩ := by
    rw [find?_append_right _ _ _ (fun r hr => beq_eq_false_iff_ne.mpr (hid r hr))]
    simp [List.find?]
  have hqf : (st.searchResults
      ++ [(⟨st.nextResultId, qid, summary, goMarshalIntSlice rids, st.now⟩ : SearchResultRow)]).find?
        (fun r => r.queryId == qid)
      = some ⟨st.nextResultId, qid, summary, goMarshalIntSlice rids, st.now⟩ := by
    rw [find?_append_right _ _ _ (fun r hr => beq_eq_false_iff_ne.mpr (hq r hr))]
    simp [List.find?]
  refine ⟨⟨st.nextResultId, qid, summary, rids, st.now⟩,
    { st with
      searchResults := st.searchResults
        ++ [⟨st.nextResultId, qid, summary, goMarshalIntSlice rids, st.now⟩],
      nextResultId := st.nextResultId + 1 }, ?_, ?_, rfl⟩
  · simp only [SQLiteDB.CreateSearchResult, Bool.false_eq_true, if_false,
      SQLiteDB.GetSearchResultByID, hidf, goUnmarshal_goMarshal]
  · simp only [SQLiteDB.GetSearchResultByQueryID, hqf, goUnmarshal_goMarshal]

/-- Witness for C5 at the concrete list [1,2,3] on a fresh store. -/
theorem SQLiteDB.CreateSearchResult_roundtrip_witness :
    ∃ (rec0 : SearchResult) (st2 : DBState),
      SQLiteDB.CreateSearchResult false emptyDB 1 (str "s") (some [1, 2, 3]) = (.ok rec0, st2)
      ∧ SQLiteDB.GetSearchResultByQueryID st2 1 = .ok rec0
      ∧ rec0.aiRelevantArticles = some [1, 2, 3] :=
  SQLiteDB.CreateSearchResult_roundtrip emptyDB 1 (str "s") (some [1, 2, 3])
    (by simp [emptyDB]) (by simp [emptyDB])

/-- Claim C1: the search pipeline is the fixed five-step sequence — create the
Query row, fetch all articles, run the relevance analysis, save the
SearchResult row, fetch the relevant articles and assemble the response — a
failure at any step aborts the whole operation with that step's own wrapped
error, and the rows created by the steps already executed (the Query row, and
the SearchResult row once step four committed) remain in the state with no
compensating rollback. -/
theorem SearchService.ProcessSearchQuery_steps (f : Faults)
    (aiF : GoStr → List Article → Except String AIAnalysisResult)
    (st : DBState) (qt : GoStr) :
    (f.createQuery = true →
      SearchService.ProcessSearchQuery f aiF st qt
        = (.error "failed to create query: storage error", st))
    ∧ (f.createQuery = false → f.getAllArticles = true →
      SearchService.ProcessSearchQuery f aiF st qt
        = (.error "failed to get articles: storage error",
           { st with
             queries := st.queries ++ [⟨st.nextQueryId, qt, st.now⟩],
             nextQueryId := st.nextQueryId + 1 }))
    ∧ (∀ e, f.createQuery = false → f.getAllArticles = false →
        aiF qt st.articles = .error e →
      SearchService.ProcessSearchQuery f aiF st qt
        = (.error ("failed to analyze query: " ++ e),
           { st with
             queries := st.queries ++ [⟨st.nextQueryId, qt, st.now⟩],
             nextQueryId := st.nextQueryId + 1 }))
    ∧ (∀ ai, f.createQuery = false → f.getAllArticles = false →
        f.createSearchResult = true → aiF qt st.articles = .ok ai →
      SearchService.ProcessSearchQuery f aiF st qt
        = (.error "failed to save search result: storage error",
           { st with
             queries := st.queries ++ [⟨st.nextQueryId, qt, st.now⟩],
             nextQueryId := st.nextQueryId + 1 }))
    ∧ (∀ ai, f.createQuery = false → f.getAllArticles = false →
        f.createSearchResult = false → f.getArticlesByIDs = true →
        aiF qt st.articles = .ok ai →
        (∀ r ∈ st.searchResults, r.id ≠ st.nextResultId) →
      SearchService.ProcessSearchQuery f aiF st qt
        = (.error "failed to get relevant articles: storage error",
           { st with
             queries := st.queries ++ [⟨st.nextQueryId, qt, st.now⟩],
             nextQueryId := st.nextQueryId + 1,
             searchResults := st.searchResults
               ++ [⟨st.nextResultId, st.nextQueryId, ai.summary,
                   goMarshalIntSlice (goSlice ai.relevantArticles), st.now⟩],
             nextResultId := st.nextResultId + 1 }))
    ∧ (∀ ai, f.createQuery = false → f.getAllArticles = false →
        f.createSearchResult = false → f.getArticlesByIDs = false →
        aiF qt st.articles = .ok ai →
        (∀ r ∈ st.searchResults, r.id ≠ st.nextResultId) →
      SearchService.ProcessSearchQuery f aiF st qt
        = (.ok ⟨qt, ai.summary,
            SQLiteDB.GetArticlesByIDsCore st.articles ai.relevantArticles,
            st.nextQueryId, st.now⟩,
           { st with
             queries := st.queries ++ [⟨st.nextQueryId, qt, st.now⟩],
             nextQueryId := st.nextQueryId + 1,
             searchResults := st.searchResults
               ++ [⟨st.nextResultId, st.nextQueryId, ai.summary,
                   goMarshalIntSlice (goSlice ai.relevantArticles), st.now⟩],
             nextResultId := st.nextResultId + 1 })) := by
  refine ⟨?_, ?_, ?_, ?_, ?_, ?_⟩
  · intro h1
    simp only [SearchService.ProcessSearchQuery, SQLiteDB.CreateQuery, h1, if_true]
    rfl
  · intro h1 h2
    simp only [SearchService.ProcessSearchQuery, SQLiteDB.CreateQuery,
      SQLiteDB.GetAllArticles, h1, h2, Bool.false_eq_true, if_false, if_true]
    rfl
  · intro e h1 h2 h3
    simp only [SearchService.ProcessSearchQuery, SQLiteDB.CreateQuery,
      SQLiteDB.GetAllArticles, h1, h2, Bool.false_eq_true, if_false, h3]
  · intro ai h1 h2 h3 h4
    simp only [SearchService.ProcessSearchQuery, SQLiteDB.CreateQuery,
      SQLiteDB.GetAllArticles, SQLiteDB.CreateSearchResult, h1, h2, h3, h4,
      Bool.false_eq_true, if_false, if_true]
    rfl
  · intro ai h1 h2 h3 h4 h5 hfresh
    have hidf : (st.searchResults
        ++ [(⟨st.nextResultId, st.nextQueryId, ai.summary,
             goMarshalIntSlice (goSlice ai.relevantArticles), st.now⟩ : SearchResultRow)]).find?
          (fun r => r.id == st.nextResultId)
        = some ⟨st.nextResultId, st.nextQueryId, ai.summary,
             goMarshalIntSlice (goSlice ai.relevantArticles), st.now⟩ := by
      rw [find?_append_right _ _ _ (fun r hr => beq_eq_false_iff_ne.mpr (hfresh r hr))]
      simp [List.find?]
    simp only [SearchService.ProcessSearchQuery, SQLiteDB.CreateQuery,
      SQLiteDB.GetAllArticles, SQLiteDB.CreateSearchResult,
      SQLiteDB.GetSearchResultByID, SQLiteDB.GetArticlesByIDs,
      h1, h2, h3, h4, h5, Bool.false_eq_true, if_false, if_true, hidf,
      goUnmarshal_goMarshal]
    rfl
  · intro ai h1 h2 h3 h4 h5 hfresh
    have hidf : (st.searchResults
        ++ [(⟨st.nextResultId, st.nextQueryId, ai.summary,
             goMarshalIntSlice (goSlice ai.relevantArticles), st.now⟩ : SearchResultRow)]).find?
          (fun r => r.id == st.nextResultId)
        = some ⟨st.nextResultId, st.nextQueryId, ai.summary,
             goMarshalIntSlice (goSlice ai.relevantArticles), st.now⟩ := by
      rw [find?_append_right _ _ _ (fun r hr => beq_eq_false_iff_ne.mpr (hfresh r hr))]
      simp [List.find?]
    simp only [SearchService.ProcessSearchQuery, SQLiteDB.CreateQuery,
      SQLiteDB.GetAllArticles, SQLiteDB.CreateSearchResult,
      SQLiteDB.GetSearchResultByID, SQLiteDB.GetArticlesByIDs,
      h1, h2, h3, h4, h5, Bool.false_eq_true, if_false, if_true, hidf,
      goUnmarshal_goMarshal]

/-- Witness for C1: on a fresh store with the heuristic strategy and no
faults, the pipeline returns the assembled response and the state holding the
new Query and SearchResult rows. -/
theorem SearchService.ProcessSearchQuery_steps_witness :
    SearchService.ProcessSearchQuery ⟨false, false, false, false⟩
      MockAIService.AnalyzeQuery emptyDB (str "hello")
      = (.ok ⟨str "hello", MockAIService.notFoundSummary, [], 1, 0⟩,
         ⟨false, [], [⟨1, str "hello", 0⟩],
          [⟨1, 1, MockAIService.notFoundSummary, str "null", 0⟩], 1, 2, 2, 0⟩) := by
  have h := (SearchService.ProcessSearchQuery_steps ⟨false, false, false, false⟩
    MockAIService.AnalyzeQuery emptyDB (str "hello")).2.2.2.2.2
    ⟨MockAIService.notFoundSummary, []⟩ rfl rfl rfl rfl rfl (by simp [emptyDB])
  exact h.trans rfl

/-- Counterexample to C4 as stated: the external-generative parser applied to
a response naming article 1 twice yields the filtered relevant-id list [1,1]
(both entries valid), yet the successfully processed search returns an
ai_relevant_articles array of length 1 — the SQL IN fetch returns each
matching row once — so the returned length differs from the number of
(filtered) relevant ids produced by the analysis component. -/
theorem SearchService.ProcessSearchQuery_duplicate_ids_counterexample :
    (GeminiService.parseResponse (str "SUMMARY: ok\nRELEVANT_ARTICLES: 1,1")
        [⟨1, str "a", str "b"⟩] = .ok ⟨str "ok", [1, 1]⟩)
    ∧ ((SearchService.ProcessSearchQuery ⟨false, false, false, false⟩
          (fun _ arts => GeminiService.parseResponse
            (str "SUMMARY: ok\nRELEVANT_ARTICLES: 1,1") arts)
          ⟨true, [⟨1, str "a", str "b"⟩], [], [], 2, 1, 1, 0⟩ (str "q")).1
        = .ok ⟨str "q", str "ok", [⟨1, str "a", str "b"⟩], 1, 0⟩)
    ∧ ([(⟨1, str "a", str "b"⟩ : Article)]).length ≠ ([1, 1] : List Int).length :=
  ⟨rfl, rfl, by decide⟩

/-- Claim C4 (amended): for every successfully processed search query, the
returned ai_relevant_articles array consists of exactly the catalog articles
whose id occurs among the analysis component's (filtered) relevant ids, in
catalog order; hence each returned Article's id is one of those ids, and the
array's length is the number of catalog ids belonging to the relevant-id list
— i.e. the number of distinct valid relevant ids, duplicates in the analysis
output collapsing to one article. -/
theorem SearchService.ProcessSearchQuery_relevant_articles (f : Faults)
    (aiF : GoStr → List Article → Except String AIAnalysisResult)
    (st : DBState) (qt : GoStr) (resp : SearchResponse) (st2 : DBState)
    (ai : AIAnalysisResult) (hai : aiF qt st.articles = .ok ai)
    (h : SearchService.ProcessSearchQuery f aiF st qt = (.ok resp, st2)) :
    resp.aiRelevantArticles = SQLiteDB.GetArticlesByIDsCore st.articles ai.relevantArticles
    ∧ (∀ a ∈ resp.aiRelevantArticles, a.id ∈ ai.relevantArticles)
    ∧ resp.aiRelevantArticles.length
        = ((st.articles.map Article.id).filter
            (fun i => ai.relevantArticles.contains i)).length := by
  have hmain : resp.aiRelevantArticles
      = SQLiteDB.GetArticlesByIDsCore st.articles ai.relevantArticles := by
    unfold SearchService.ProcessSearchQuery at h
    split at h
    · simp at h
    · next query st1 heq1 =>
      have hart : st1.articles = st.articles := by
        unfold SQLiteDB.CreateQuery at heq1
        split at heq1
        · simp at heq1
        · simp only [Prod.mk.injEq] at heq1
          rw [← heq1.2]
      split at h
      · simp at h
      · next articles heq2 =>
        have harts : articles = st.articles := by
          unfold SQLiteDB.GetAllArticles at heq2
          split at heq2
          · simp at heq2
          · simp only [Except.ok.injEq] at heq2
            rw [← heq2, hart]
        split at h
        · simp at h
        · next ai2 heq3 =>
          have hai2 : ai2 = ai := by
            rw [harts, hai] at heq3
            simpa using heq3.symm
          split at h
          · simp at h
          · next r0 st3 heq4 =>
            have hart3 : st3.articles = st.articles := by
              unfold SQLiteDB.CreateSearchResult at heq4
              split at heq4
              · simp at heq4
              · simp only [Prod.mk.injEq] at heq4
                rw [← heq4.2, hart]
            split at h
            · simp at h
            · next relArts heq5 =>
              have hrel : relArts
                  = SQLiteDB.GetArticlesByIDsCore st.articles ai.relevantArticles := by
                unfold SQLiteDB.GetArticlesByIDs at heq5
                split at heq5
                · simp at heq5
                · simp only [Except.ok.injEq] at heq5
                  rw [← heq5, hart3, hai2]
              simp only [Prod.mk.injEq, Except.ok.injEq] at h
              rw [← h.1, ← hrel]
  refine ⟨hmain, ?_, ?_⟩
  · intro a ha
    rw [hmain] at ha
    unfold SQLiteDB.GetArticlesByIDsCore at ha
    split at ha
    · simp at ha
    · exact List.mem_of_elem_eq_true (List.mem_filter.mp ha).2
  · rw [hmain]
    unfold SQLiteDB.GetArticlesByIDsCore
    split
    · next hnil =>
      rw [List.isEmpty_iff.mp hnil]
      simp
    · rw [List.filter_map, List.length_map]
      rfl

/-- Witness for C4 (amended) at a concrete heuristic run. -/
theorem SearchService.ProcessSearchQuery_relevant_articles_witness :
    ([(⟨1, str "password reset", str "c"⟩ : Article)]
        = SQLiteDB.GetArticlesByIDsCore [⟨1, str "password reset", str "c"⟩] [1])
    ∧ (∀ a ∈ [(⟨1, str "password reset", str "c"⟩ : Article)], a.id ∈ [(1 : Int)])
    ∧ ([(⟨1, str "password reset", str "c"⟩ : Article)]).length
        = ((([(⟨1, str "password reset", str "c"⟩ : Article)]).map Article.id).filter
            (fun i => ([(1 : Int)]).contains i)).length :=
  SearchService.ProcessSearchQuery_relevant_articles ⟨false, false, false, false⟩
    MockAIService.AnalyzeQuery
    ⟨true, [⟨1, str "password reset", str "c"⟩], [], [], 2, 1, 1, 0⟩
    (str "password")
    ⟨str "password", MockAIService.passwordSummary,
      [⟨1, str "password reset", str "c"⟩], 1, 0⟩
    ⟨true, [⟨1, str "password reset", str "c"⟩], [⟨1, str "password", 0⟩],
      [⟨1, 1, MockAIService.passwordSummary, str "[1]", 0⟩], 2, 2, 2, 0⟩
    ⟨MockAIService.passwordSummary, [1]⟩ rfl rfl
